import Mathlib

/-!
Shallow embedding of the zerodha-backend order-placement and signup logic.

Source of truth:
  * `src/index.js` (`POST /newOrder`, lines 110-202) and its near-identical
    duplicate `src/unnamed/part_000` (lines 96-161): input validation,
    order persistence, and the holdings-update algorithm.
  * `src/Controllers/AuthController.js` (`Signup`): signup validation and
    uniqueness checks.

Numbers are modelled as exact rationals (`ℚ`); JavaScript performs IEEE-754
double arithmetic, but every claim under consideration is about the algebraic
algorithm, which we express over `ℚ`.  JavaScript string length is UTF-16 code
units; Lean `String.length` counts code points — these agree on the inputs the
claims quantify over.
-/

/-- JavaScript value as it can appear in a JSON request-body field: absent
(`undefined`), a number, or a string.  This is what the `req.body`
destructuring in `POST /newOrder` yields for `name`, `qty`, `price`, `mode`. -/
inductive JsVal : Type where
  | undef : JsVal
  | num : ℚ → JsVal
  | str : String → JsVal
deriving DecidableEq, Repr

/-- JavaScript truthiness of a request field (`!x` in the source is
`!(truthy x)`): `undefined` is falsy, the number `0` is falsy, the empty
string is falsy, everything else here is truthy. -/
def truthy : JsVal → Bool
  | .undef => false
  | .num q => decide (q ≠ 0)
  | .str s => decide (s ≠ "")

theorem truthy_num (q : ℚ) : truthy (JsVal.num q) = decide (q ≠ 0) := rfl

theorem truthy_str (s : String) : truthy (JsVal.str s) = decide (s ≠ "") := rfl

/-- The check `Number.isInteger(qty) && qty > 0` from the source
(`!Number.isInteger(qty) || qty <= 0` negated): the field is a number whose
value is a positive integer.  `Number.isInteger` is false on any non-number. -/
def isPosIntVal : JsVal → Bool
  | .num q => decide (q.den = 1) && decide (0 < q)
  | _ => false

/-- The check `typeof price === "number" && price > 0` from the source
(`typeof price !== "number" || price <= 0` negated). -/
def isPosNumVal : JsVal → Bool
  | .num q => decide (0 < q)
  | _ => false

/-- Numeric value of a field; only consulted on fields that already passed the
numeric validation checks, which guarantee the `num` case. -/
def numVal : JsVal → ℚ
  | .num q => q
  | _ => 0

/-- One document of the Holding collection (`HoldingModel`):
`{ name, qty, avg, price, net, day }`. -/
structure Holding : Type where
  name : JsVal
  qty : ℚ
  avg : ℚ
  price : ℚ
  net : ℚ
  day : ℚ
deriving DecidableEq, Repr

/-- One document of the Order collection (`OrderModel`):
`{ name, qty, price, mode }`  (see `src/schemas/OrderSchema.js`). -/
structure Order : Type where
  name : JsVal
  qty : ℚ
  price : ℚ
  mode : JsVal
deriving DecidableEq, Repr

/-- The persistent state the `/newOrder` route touches: the order ledger
(append-only) and the holdings ledger. -/
structure LedgerState : Type where
  orders : List Order
  holdings : List Holding
deriving DecidableEq, Repr

/-- The request body of `POST /newOrder`:
`const { name, qty, price, mode } = req.body`. -/
structure OrderReq : Type where
  name : JsVal
  qty : JsVal
  price : JsVal
  mode : JsVal
deriving DecidableEq, Repr

/-- Outcome of a `/newOrder` request: 201 success, a 400 validation rejection
with its message, or a thrown domain error (caught and mapped to a 500)
with its message. -/
inductive OrderResp : Type where
  | created : OrderResp
  | validationError : String → OrderResp
  | domainError : String → OrderResp
deriving DecidableEq, Repr

/-- `HoldingModel.findOne({ name })`: first holding whose `name` equals the
given key. -/
def findHolding (name : JsVal) (hs : List Holding) : Option Holding :=
  hs.find? (fun h => decide (h.name = name))

/-- `HoldingModel.findByIdAndUpdate(found._id, patch)`: replace the first
element satisfying `p` (the one `findOne` returned) by `f` of it. -/
def updateFirst (p : Holding → Bool) (f : Holding → Holding) : List Holding → List Holding
  | [] => []
  | h :: t => if p h then f h :: t else h :: updateFirst p f t

/-- `HoldingModel.findByIdAndDelete(found._id)`: remove the first element
satisfying `p` (the one `findOne` returned). -/
def deleteFirst (p : Holding → Bool) : List Holding → List Holding
  | [] => []
  | h :: t => if p h then t else h :: deleteFirst p t

/-- The `POST /newOrder` handler of `src/index.js` (lines 110-202), state
passed explicitly.  Validation happens in source order with early returns;
on success the order is appended first, then the holdings ledger is updated
per the BUY/SELL algorithm; a thrown domain error leaves the already-saved
order in place. -/
def placeOrder (req : OrderReq) (st : LedgerState) : LedgerState × OrderResp :=
  if ¬(truthy req.name && truthy req.qty && truthy req.price && truthy req.mode) then
    (st, .validationError "Missing required fields")
  else if ¬ isPosIntVal req.qty then
    (st, .validationError "Quantity must be a positive integer")
  else if ¬ isPosNumVal req.price then
    (st, .validationError "Price must be a positive number")
  else if ¬(req.mode = JsVal.str "BUY" ∨ req.mode = JsVal.str "SELL") then
    (st, .validationError "Mode must be BUY or SELL")
  else
    let qty := numVal req.qty
    let price := numVal req.price
    let newOrder : Order := { name := req.name, qty := qty, price := price, mode := req.mode }
    let orders1 := st.orders ++ [newOrder]
    let isMine : Holding → Bool := fun h => decide (h.name = req.name)
    match findHolding req.name st.holdings with
    | some existingHolding =>
      if req.mode = JsVal.str "BUY" then
        let totalCost := existingHolding.avg * existingHolding.qty + price * qty
        let totalQty := existingHolding.qty + qty
        let newAvgPrice := totalCost / totalQty
        ({ orders := orders1,
           holdings := updateFirst isMine
             (fun h => { h with qty := totalQty, avg := newAvgPrice, price := price })
             st.holdings },
         .created)
      else if req.mode = JsVal.str "SELL" then
        let remainingQty := existingHolding.qty - qty
        if 0 < remainingQty then
          ({ orders := orders1,
             holdings := updateFirst isMine
               (fun h => { h with qty := remainingQty, price := price })
               st.holdings },
           .created)
        else if remainingQty = 0 then
          ({ orders := orders1, holdings := deleteFirst isMine st.holdings }, .created)
        else
          ({ orders := orders1, holdings := st.holdings },
           .domainError "Cannot sell more than owned quantity")
      else
        ({ orders := orders1, holdings := st.holdings }, .created)
    | none =>
      if req.mode = JsVal.str "BUY" then
        ({ orders := orders1,
           holdings := st.holdings ++
             [{ name := req.name, qty := qty, avg := price, price := price, net := 0, day := 0 }] },
         .created)
      else
        ({ orders := orders1, holdings := st.holdings },
         .domainError "Cannot sell stock that is not owned")

example :
    (placeOrder { name := .str "TCS", qty := .num 10, price := .num 100, mode := .str "BUY" }
      { orders := [], holdings := [] }).1.holdings
      = [{ name := .str "TCS", qty := 10, avg := 100, price := 100, net := 0, day := 0 }] := by
  norm_num [placeOrder, findHolding, truthy, isPosIntVal, isPosNumVal, numVal]
  decide

example :
    (placeOrder { name := .str "TCS", qty := .num 10, price := .num 200, mode := .str "BUY" }
      { orders := [],
        holdings := [{ name := .str "TCS", qty := 10, avg := 100, price := 100, net := 0, day := 0 }] }).1.holdings
      = [{ name := .str "TCS", qty := 20, avg := 150, price := 200, net := 0, day := 0 }] := by
  norm_num [placeOrder, findHolding, truthy, isPosIntVal, isPosNumVal, numVal, updateFirst]
  decide

example :
    (placeOrder { name := .str "TCS", qty := .num 0, price := .num 100, mode := .str "BUY" }
      { orders := [], holdings := [] }).2 = .validationError "Missing required fields" := by
  decide

/-! ### Helper lemmas about the ledger primitives -/

theorem find?_updateFirst {p : Holding → Bool} {f : Holding → Holding} {l : List Holding}
    {a : Holding} (hp : ∀ x, p (f x) = p x) (h : l.find? p = some a) :
    (updateFirst p f l).find? p = some (f a) := by
  induction l with
  | nil => simp at h
  | cons x t ih =>
    by_cases hx : p x = true
    · rw [List.find?_cons_of_pos _ hx] at h
      cases h
      simp [updateFirst, hx, List.find?_cons_of_pos, hp]
    · have hx' : p x = false := by simpa using hx
      rw [List.find?_cons_of_neg _ (by simp [hx'])] at h
      simp [updateFirst, hx', List.find?_cons_of_neg, ih h]

theorem mem_updateFirst {p : Holding → Bool} {f : Holding → Holding} {l : List Holding}
    {x ex : Holding} (hfind : l.find? p = some ex) (hx : x ∈ updateFirst p f l) :
    x ∈ l ∨ x = f ex := by
  induction l with
  | nil => simp [updateFirst] at hx
  | cons y t ih =>
    by_cases hy : p y = true
    · rw [List.find?_cons_of_pos _ hy] at hfind
      cases hfind
      simp only [updateFirst, hy, if_true] at hx
      rcases List.mem_cons.mp hx with h | h
      · exact Or.inr h
      · exact Or.inl (List.mem_cons_of_mem _ h)
    · have hy' : p y = false := by simpa using hy
      rw [List.find?_cons_of_neg _ (by simp [hy'])] at hfind
      simp only [updateFirst, hy', Bool.false_eq_true, if_false] at hx
      rcases List.mem_cons.mp hx with h | h
      · exact Or.inl (h ▸ List.mem_cons_self _ _)
      · rcases ih hfind h with h2 | h2
        · exact Or.inl (List.mem_cons_of_mem _ h2)
        · exact Or.inr h2

theorem mem_deleteFirst {p : Holding → Bool} {l : List Holding} {x : Holding}
    (hx : x ∈ deleteFirst p l) : x ∈ l := by
  induction l with
  | nil => simp [deleteFirst] at hx
  | cons y t ih =>
    by_cases hy : p y = true
    · simp only [deleteFirst, hy, if_true] at hx
      exact List.mem_cons_of_mem _ hx
    · have hy' : p y = false := by simpa using hy
      simp only [deleteFirst, hy', Bool.false_eq_true, if_false] at hx
      rcases List.mem_cons.mp hx with h | h
      · exact h ▸ List.mem_cons_self _ _
      · exact List.mem_cons_of_mem _ (ih h)

theorem filter_updateFirst {p : Holding → Bool} {f : Holding → Holding} {l : List Holding}
    (hp : ∀ x, p (f x) = p x) :
    (updateFirst p f l).filter (fun x => !p x) = l.filter (fun x => !p x) := by
  induction l with
  | nil => rfl
  | cons y t ih =>
    by_cases hy : p y = true
    · simp [updateFirst, hy, List.filter_cons, hp]
    · have hy' : p y = false := by simpa using hy
      simp [updateFirst, hy', List.filter_cons, ih]

theorem filter_deleteFirst {p : Holding → Bool} {l : List Holding} :
    (deleteFirst p l).filter (fun x => !p x) = l.filter (fun x => !p x) := by
  induction l with
  | nil => rfl
  | cons y t ih =>
    by_cases hy : p y = true
    · simp [deleteFirst, hy, List.filter_cons]
    · have hy' : p y = false := by simpa using hy
      simp [deleteFirst, hy', List.filter_cons, ih]

/-! ### Validated-request branch characterizations of `placeOrder` -/

/-- A `/newOrder` body that passes all field validation apart from the mode
check: `name` truthy, `qty` a positive-integer number `q`, `price` a positive
number `p`. -/
def validReqFields (req : OrderReq) (q p : ℚ) : Prop :=
  truthy req.name = true ∧ req.qty = JsVal.num q ∧ q.den = 1 ∧ 0 < q ∧
  req.price = JsVal.num p ∧ 0 < p

theorem placeOrder_buy_existing {req : OrderReq} {st : LedgerState} {q p : ℚ} {ex : Holding}
    (h : validReqFields req q p) (hmode : req.mode = JsVal.str "BUY")
    (hex : findHolding req.name st.holdings = some ex) :
    placeOrder req st =
      ({ orders := st.orders ++ [{ name := req.name, qty := q, price := p, mode := req.mode }],
         holdings := updateFirst (fun h => decide (h.name = req.name))
           (fun h => { h with qty := ex.qty + q, avg := (ex.avg * ex.qty + p * q) / (ex.qty + q), price := p })
           st.holdings },
       OrderResp.created) := by
  obtain ⟨hn, hq, hqden, hqpos, hp, hppos⟩ := h
  have hq0 : q ≠ 0 := ne_of_gt hqpos
  have hp0 : p ≠ 0 := ne_of_gt hppos
  have hb : ("BUY" : String) ≠ "" := by decide
  simp [placeOrder, hq, hp, hn, hmode, hex, truthy_num, truthy_str, isPosIntVal, isPosNumVal, numVal,
        hq0, hp0, hqden, hqpos, hppos, hb]

theorem placeOrder_buy_new {req : OrderReq} {st : LedgerState} {q p : ℚ}
    (h : validReqFields req q p) (hmode : req.mode = JsVal.str "BUY")
    (hex : findHolding req.name st.holdings = none) :
    placeOrder req st =
      ({ orders := st.orders ++ [{ name := req.name, qty := q, price := p, mode := req.mode }],
         holdings := st.holdings ++
           [{ name := req.name, qty := q, avg := p, price := p, net := 0, day := 0 }] },
       OrderResp.created) := by
  obtain ⟨hn, hq, hqden, hqpos, hp, hppos⟩ := h
  have hq0 : q ≠ 0 := ne_of_gt hqpos
  have hp0 : p ≠ 0 := ne_of_gt hppos
  have hb : ("BUY" : String) ≠ "" := by decide
  simp [placeOrder, hq, hp, hn, hmode, hex, truthy_num, truthy_str, isPosIntVal, isPosNumVal, numVal,
        hq0, hp0, hqden, hqpos, hppos, hb]

theorem placeOrder_sell_decrement {req : OrderReq} {st : LedgerState} {q p : ℚ} {ex : Holding}
    (h : validReqFields req q p) (hmode : req.mode = JsVal.str "SELL")
    (hex : findHolding req.name st.holdings = some ex) (hrem : 0 < ex.qty - q) :
    placeOrder req st =
      ({ orders := st.orders ++ [{ name := req.name, qty := q, price := p, mode := req.mode }],
         holdings := updateFirst (fun h => decide (h.name = req.name))
           (fun h => { h with qty := ex.qty - q, price := p })
           st.holdings },
       OrderResp.created) := by
  obtain ⟨hn, hq, hqden, hqpos, hp, hppos⟩ := h
  have hq0 : q ≠ 0 := ne_of_gt hqpos
  have hp0 : p ≠ 0 := ne_of_gt hppos
  have hs : ("SELL" : String) ≠ "" := by decide
  have hsb : ("SELL" : String) ≠ "BUY" := by decide
  simp [placeOrder, hq, hp, hn, hmode, hex, truthy_num, truthy_str, isPosIntVal, isPosNumVal, numVal,
        hq0, hp0, hqden, hqpos, hppos, hs, hsb, hrem]

theorem placeOrder_sell_exact {req : OrderReq} {st : LedgerState} {q p : ℚ} {ex : Holding}
    (h : validReqFields req q p) (hmode : req.mode = JsVal.str "SELL")
    (hex : findHolding req.name st.holdings = some ex) (hrem : ex.qty - q = 0) :
    placeOrder req st =
      ({ orders := st.orders ++ [{ name := req.name, qty := q, price := p, mode := req.mode }],
         holdings := deleteFirst (fun h => decide (h.name = req.name)) st.holdings },
       OrderResp.created) := by
  obtain ⟨hn, hq, hqden, hqpos, hp, hppos⟩ := h
  have hq0 : q ≠ 0 := ne_of_gt hqpos
  have hp0 : p ≠ 0 := ne_of_gt hppos
  have hs : ("SELL" : String) ≠ "" := by decide
  have hsb : ("SELL" : String) ≠ "BUY" := by decide
  have hnotpos : ¬ (0 < ex.qty - q) := by rw [hrem]; exact lt_irrefl 0
  simp [placeOrder, hq, hp, hn, hmode, hex, truthy_num, truthy_str, isPosIntVal, isPosNumVal, numVal,
        hq0, hp0, hqden, hqpos, hppos, hs, hsb, hrem, hnotpos]

theorem placeOrder_sell_over {req : OrderReq} {st : LedgerState} {q p : ℚ} {ex : Holding}
    (h : validReqFields req q p) (hmode : req.mode = JsVal.str "SELL")
    (hex : findHolding req.name st.holdings = some ex) (hrem : ex.qty - q < 0) :
    placeOrder req st =
      ({ orders := st.orders ++ [{ name := req.name, qty := q, price := p, mode := req.mode }],
         holdings := st.holdings },
       OrderResp.domainError "Cannot sell more than owned quantity") := by
  obtain ⟨hn, hq, hqden, hqpos, hp, hppos⟩ := h
  have hq0 : q ≠ 0 := ne_of_gt hqpos
  have hp0 : p ≠ 0 := ne_of_gt hppos
  have hs : ("SELL" : String) ≠ "" := by decide
  have hsb : ("SELL" : String) ≠ "BUY" := by decide
  have hnotpos : ¬ (0 < ex.qty - q) := not_lt_of_gt hrem
  have hne : ex.qty - q ≠ 0 := ne_of_lt hrem
  simp [placeOrder, hq, hp, hn, hmode, hex, truthy_num, truthy_str, isPosIntVal, isPosNumVal, numVal,
        hq0, hp0, hqden, hqpos, hppos, hs, hsb, hnotpos, hne]

theorem placeOrder_sell_none {req : OrderReq} {st : LedgerState} {q p : ℚ}
    (h : validReqFields req q p) (hmode : req.mode = JsVal.str "SELL")
    (hex : findHolding req.name st.holdings = none) :
    placeOrder req st =
      ({ orders := st.orders ++ [{ name := req.name, qty := q, price := p, mode := req.mode }],
         holdings := st.holdings },
       OrderResp.domainError "Cannot sell stock that is not owned") := by
  obtain ⟨hn, hq, hqden, hqpos, hp, hppos⟩ := h
  have hq0 : q ≠ 0 := ne_of_gt hqpos
  have hp0 : p ≠ 0 := ne_of_gt hppos
  have hs : ("SELL" : String) ≠ "" := by decide
  have hsb : ("SELL" : String) ≠ "BUY" := by decide
  simp [placeOrder, hq, hp, hn, hmode, hex, truthy_num, truthy_str, isPosIntVal, isPosNumVal, numVal,
        hq0, hp0, hqden, hqpos, hppos, hs, hsb]

/-! ### Claims about the holdings-update algorithm -/

/-- C1: for every valid BUY order (`name`, positive-integer `qty` `q`, positive
`price` `p`): if a Holding for `name` exists, `placeOrder` sets its `avg` to
`(existing.avg * existing.qty + p * q) / (existing.qty + q)`, its `qty` to
`existing.qty + q`, and overwrites its `price` field with the incoming trade
price; if no Holding exists, it creates a new Holding with quantity `q`,
`avg = p`, `price = p`, `net = 0` and `day = 0`. -/
theorem C1_buy_holding_update (req : OrderReq) (st : LedgerState) (q p : ℚ)
    (h : validReqFields req q p) (hmode : req.mode = JsVal.str "BUY") :
    (∀ ex, findHolding req.name st.holdings = some ex →
      findHolding req.name (placeOrder req st).1.holdings =
        some { ex with qty := ex.qty + q, avg := (ex.avg * ex.qty + p * q) / (ex.qty + q), price := p }) ∧
    (findHolding req.name st.holdings = none →
      (placeOrder req st).1.holdings =
        st.holdings ++ [{ name := req.name, qty := q, avg := p, price := p, net := 0, day := 0 }]) := by
  constructor
  · intro ex hex
    rw [placeOrder_buy_existing h hmode hex]
    exact find?_updateFirst (fun x => rfl) hex
  · intro hex
    rw [placeOrder_buy_new h hmode hex]

/-- Witness for C1 at a concrete input: first BUY of 5 shares of TCS at 7
creates the Holding `{qty := 5, avg := 7, price := 7, net := 0, day := 0}`. -/
theorem C1_buy_holding_update_witness :
    (placeOrder { name := .str "TCS", qty := .num 5, price := .num 7, mode := .str "BUY" }
      { orders := [], holdings := [] }).1.holdings
      = [{ name := .str "TCS", qty := 5, avg := 7, price := 7, net := 0, day := 0 }] := by
  have h := C1_buy_holding_update
    { name := .str "TCS", qty := .num 5, price := .num 7, mode := .str "BUY" }
    { orders := [], holdings := [] } 5 7
    ⟨by decide, rfl, by decide, by decide, rfl, by decide⟩ rfl
  simpa using h.2 rfl

/-- C4: a valid SELL against an existing Holding with strictly positive
remainder updates the Holding's `qty` to `existing.qty - q` and overwrites its
`price`, leaving `avg` (and `name`, `net`, `day`) unchanged, as the record
update below records field by field. -/
theorem C4_partial_sell_frame (req : OrderReq) (st : LedgerState) (q p : ℚ) (ex : Holding)
    (h : validReqFields req q p) (hmode : req.mode = JsVal.str "SELL")
    (hex : findHolding req.name st.holdings = some ex) (hrem : 0 < ex.qty - q) :
    findHolding req.name (placeOrder req st).1.holdings =
      some { ex with qty := ex.qty - q, price := p } := by
  rw [placeOrder_sell_decrement h hmode hex hrem]
  exact find?_updateFirst (fun x => rfl) hex

/-- Witness for C4 at a concrete input: selling 4 of 10 TCS shares held at
average 100 leaves 6 shares, average still 100, price overwritten to 90. -/
theorem C4_partial_sell_frame_witness :
    findHolding (.str "TCS")
      ((placeOrder { name := .str "TCS", qty := .num 4, price := .num 90, mode := .str "SELL" }
        { orders := [],
          holdings := [{ name := .str "TCS", qty := 10, avg := 100, price := 100, net := 0, day := 0 }] }).1.holdings)
      = some { name := .str "TCS", qty := 6, avg := 100, price := 90, net := 0, day := 0 } := by
  have h := C4_partial_sell_frame
    { name := .str "TCS", qty := .num 4, price := .num 90, mode := .str "SELL" }
    { orders := [],
      holdings := [{ name := .str "TCS", qty := 10, avg := 100, price := 100, net := 0, day := 0 }] }
    4 90 { name := .str "TCS", qty := 10, avg := 100, price := 100, net := 0, day := 0 }
    ⟨by decide, rfl, by decide, by decide, rfl, by decide⟩ rfl rfl (by norm_num)
  norm_num at h
  exact h

/-- C5: a validated SELL that exceeds the owned quantity (Holding exists and
`q > existing.qty`) or hits a ticker with no Holding fails with the
corresponding domain error, leaves the holdings ledger unchanged, and yet has
already appended the Order to the order ledger. -/
theorem C5_oversell_domain_error (req : OrderReq) (st : LedgerState) (q p : ℚ)
    (h : validReqFields req q p) (hmode : req.mode = JsVal.str "SELL") :
    (∀ ex, findHolding req.name st.holdings = some ex → ex.qty < q →
      placeOrder req st =
        ({ orders := st.orders ++ [{ name := req.name, qty := q, price := p, mode := req.mode }],
           holdings := st.holdings },
         OrderResp.domainError "Cannot sell more than owned quantity")) ∧
    (findHolding req.name st.holdings = none →
      placeOrder req st =
        ({ orders := st.orders ++ [{ name := req.name, qty := q, price := p, mode := req.mode }],
           holdings := st.holdings },
         OrderResp.domainError "Cannot sell stock that is not owned")) := by
  constructor
  · intro ex hex hlt
    exact placeOrder_sell_over h hmode hex (sub_neg.mpr hlt)
  · intro hex
    exact placeOrder_sell_none h hmode hex

/-- Witness for C5 at a concrete input: SELL 999 TCS against a 15-share Holding
returns the oversell domain error, keeps the Holding intact, and persists the
Order. -/
theorem C5_oversell_domain_error_witness :
    placeOrder { name := .str "TCS", qty := .num 999, price := .num 50, mode := .str "SELL" }
      { orders := [],
        holdings := [{ name := .str "TCS", qty := 15, avg := 100, price := 100, net := 0, day := 0 }] }
      = ({ orders := [{ name := .str "TCS", qty := 999, price := 50, mode := .str "SELL" }],
           holdings := [{ name := .str "TCS", qty := 15, avg := 100, price := 100, net := 0, day := 0 }] },
         OrderResp.domainError "Cannot sell more than owned quantity") := by
  have h := C5_oversell_domain_error
    { name := .str "TCS", qty := .num 999, price := .num 50, mode := .str "SELL" }
    { orders := [],
      holdings := [{ name := .str "TCS", qty := 15, avg := 100, price := 100, net := 0, day := 0 }] }
    999 50 ⟨by decide, rfl, by decide, by decide, rfl, by decide⟩ rfl
  simpa using h.1 _ rfl (by norm_num)

/-- C9: a `/newOrder` request for ticker `X` never touches the Holding of any
other ticker: the sub-list of holdings whose name differs from `X` is the same
before and after, whether the request succeeds, fails validation, or fails
with a domain error. -/
theorem C9_other_tickers_untouched (req : OrderReq) (st : LedgerState) :
    (placeOrder req st).1.holdings.filter (fun h => !decide (h.name = req.name))
      = st.holdings.filter (fun h => !decide (h.name = req.name)) := by
  unfold placeOrder
  repeat' split
  all_goals
    first
      | rfl
      | exact filter_updateFirst (fun x => rfl)
      | exact filter_deleteFirst
      | simp
  split
  · exact filter_updateFirst (fun x => rfl)
  · split
    · exact filter_deleteFirst
    · rfl

/-- C10: if `qty` or `price` is present but equals the number `0`, the request
is rejected with the generic "Missing required fields" message (the JS
presence check treats the falsy `0` as missing), with no state change. -/
theorem C10_zero_field_missing_message (req : OrderReq) (st : LedgerState)
    (h : req.qty = JsVal.num 0 ∨ req.price = JsVal.num 0) :
    (placeOrder req st).2 = OrderResp.validationError "Missing required fields" ∧
    (placeOrder req st).1 = st := by
  rcases h with h | h <;>
    simp [placeOrder, h, truthy_num]

/-- Witness for C10 at a concrete input: `qty = 0` on an otherwise well-formed
BUY yields the generic missing-fields rejection. -/
theorem C10_zero_field_missing_message_witness :
    (placeOrder { name := .str "TCS", qty := .num 0, price := .num 100, mode := .str "BUY" }
      { orders := [], holdings := [] }).2
      = OrderResp.validationError "Missing required fields" :=
  (C10_zero_field_missing_message
    { name := .str "TCS", qty := .num 0, price := .num 100, mode := .str "BUY" }
    { orders := [], holdings := [] } (Or.inl rfl)).1

/-! ### BUY sequences and the weighted mean (C2) -/

/-- The `/newOrder` body of a BUY of `t.1` shares at price `t.2`. -/
def buyReq (name : JsVal) (t : ℚ × ℚ) : OrderReq :=
  { name := name, qty := JsVal.num t.1, price := JsVal.num t.2, mode := JsVal.str "BUY" }

/-- Run a sequence of BUY orders for one ticker through `placeOrder`. -/
def applyBuys (name : JsVal) (trades : List (ℚ × ℚ)) (st : LedgerState) : LedgerState :=
  trades.foldl (fun s t => (placeOrder (buyReq name t) s).1) st

/-- A trade `(qty, price)` that passes order validation: positive integer
quantity, positive price. -/
def validTrade (t : ℚ × ℚ) : Prop := t.1.den = 1 ∧ 0 < t.1 ∧ 0 < t.2

instance (t : ℚ × ℚ) : Decidable (validTrade t) := by
  unfold validTrade
  infer_instance

/-- Total quantity of a trade sequence. -/
def qtySum (trades : List (ℚ × ℚ)) : ℚ := (trades.map fun t => t.1).sum

/-- Total cost (price times quantity summed) of a trade sequence. -/
def costSum (trades : List (ℚ × ℚ)) : ℚ := (trades.map fun t => t.2 * t.1).sum

theorem find?_append_of_none {p : Holding → Bool} {l1 l2 : List Holding}
    (h : l1.find? p = none) : (l1 ++ l2).find? p = l2.find? p := by
  induction l1 with
  | nil => rfl
  | cons x t ih =>
    cases hpx : p x with
    | true => simp [List.find?_cons, hpx] at h
    | false =>
      simp only [List.find?_cons, hpx] at h
      simpa [List.find?_cons, hpx] using ih h

theorem applyBuys_existing {name : JsVal} (hn : truthy name = true) :
    ∀ (trades : List (ℚ × ℚ)) (st : LedgerState) (ex : Holding),
      (∀ t ∈ trades, validTrade t) → findHolding name st.holdings = some ex → 0 < ex.qty →
      ∃ hld, findHolding name (applyBuys name trades st).holdings = some hld ∧
        hld.qty = ex.qty + qtySum trades ∧
        hld.avg = (ex.avg * ex.qty + costSum trades) / (ex.qty + qtySum trades) := by
  intro trades
  induction trades with
  | nil =>
    intro st ex hv hex hpos
    refine ⟨ex, hex, by simp [applyBuys, qtySum], ?_⟩
    simp only [applyBuys, List.foldl_nil, qtySum, costSum, List.map_nil, List.sum_nil, add_zero]
    rw [mul_div_assoc, div_self (ne_of_gt hpos), mul_one]
  | cons t rest ih =>
    intro st ex hv hex hpos
    obtain ⟨hden, hqpos, hppos⟩ := hv t (List.mem_cons_self _ _)
    have hfields : validReqFields (buyReq name t) t.1 t.2 := ⟨hn, rfl, hden, hqpos, rfl, hppos⟩
    have hstep := placeOrder_buy_existing hfields rfl hex
    have hfind2 : findHolding name (placeOrder (buyReq name t) st).1.holdings =
        some { ex with qty := ex.qty + t.1, avg := (ex.avg * ex.qty + t.2 * t.1) / (ex.qty + t.1), price := t.2 } := by
      rw [hstep]
      exact find?_updateFirst (fun x => rfl) hex
    have hpos2 : (0:ℚ) < ex.qty + t.1 := add_pos hpos hqpos
    obtain ⟨hld, hfind3, hqty3, havg3⟩ :=
      ih ((placeOrder (buyReq name t) st).1)
        { ex with qty := ex.qty + t.1, avg := (ex.avg * ex.qty + t.2 * t.1) / (ex.qty + t.1), price := t.2 }
        (fun x hx => hv x (List.mem_cons_of_mem _ hx)) hfind2 hpos2
    refine ⟨hld, by simpa [applyBuys] using hfind3, ?_, ?_⟩
    · rw [hqty3]
      simp only [qtySum, List.map_cons, List.sum_cons]
      ring
    · rw [havg3]
      simp only [qtySum, costSum, List.map_cons, List.sum_cons]
      rw [div_mul_eq_mul_div, mul_div_cancel_right₀ _ (ne_of_gt hpos2)]
      ring

theorem applyBuys_avg {name : JsVal} {trades : List (ℚ × ℚ)} {st : LedgerState}
    (hn : truthy name = true) (hv : ∀ t ∈ trades, validTrade t) (hne : trades ≠ [])
    (hex : findHolding name st.holdings = none) :
    (findHolding name (applyBuys name trades st).holdings).map Holding.avg
      = some (costSum trades / qtySum trades) := by
  cases trades with
  | nil => exact absurd rfl hne
  | cons t rest =>
    obtain ⟨hden, hqpos, hppos⟩ := hv t (List.mem_cons_self _ _)
    have hfields : validReqFields (buyReq name t) t.1 t.2 := ⟨hn, rfl, hden, hqpos, rfl, hppos⟩
    have hstep := placeOrder_buy_new hfields rfl hex
    have hfind1 : findHolding name (placeOrder (buyReq name t) st).1.holdings =
        some { name := name, qty := t.1, avg := t.2, price := t.2, net := 0, day := 0 } := by
      rw [hstep]
      unfold findHolding at hex ⊢
      rw [find?_append_of_none hex]
      simp [List.find?_cons, buyReq]
    obtain ⟨hld, hfind3, hqty3, havg3⟩ :=
      applyBuys_existing hn rest ((placeOrder (buyReq name t) st).1)
        { name := name, qty := t.1, avg := t.2, price := t.2, net := 0, day := 0 }
        (fun x hx => hv x (List.mem_cons_of_mem _ hx)) hfind1 hqpos
    have hfin : findHolding name (applyBuys name (t :: rest) st).holdings = some hld := by
      simpa [applyBuys] using hfind3
    rw [hfin, Option.map_some', havg3]
    simp only [qtySum, costSum, List.map_cons, List.sum_cons]

/-- C2: for every nonempty sequence of valid BUY orders on one ticker with no
intervening SELL (starting with no Holding for that ticker), the resulting
Holding's `avg` is the quantity-weighted mean of the buy prices — total cost
divided by total quantity — and any permutation of the sequence produces the
same `avg`. -/
theorem C2_buy_sequence_weighted_mean (name : JsVal) (trades : List (ℚ × ℚ)) (st : LedgerState)
    (hn : truthy name = true) (hv : ∀ t ∈ trades, validTrade t) (hne : trades ≠ [])
    (hex : findHolding name st.holdings = none) :
    ((findHolding name (applyBuys name trades st).holdings).map Holding.avg
      = some (costSum trades / qtySum trades)) ∧
    (∀ (trades2 : List (ℚ × ℚ)) (st2 : LedgerState), trades2.Perm trades →
      findHolding name st2.holdings = none →
      (findHolding name (applyBuys name trades2 st2).holdings).map Holding.avg
        = (findHolding name (applyBuys name trades st).holdings).map Holding.avg) := by
  have hmain := applyBuys_avg hn hv hne hex
  refine ⟨hmain, ?_⟩
  intro trades2 st2 hperm hex2
  have hv2 : ∀ t ∈ trades2, validTrade t := fun t ht => hv t (hperm.mem_iff.mp ht)
  have hne2 : trades2 ≠ [] := by
    intro hnil
    exact hne (List.Perm.eq_nil ((hnil ▸ hperm).symm))
  have hmain2 := applyBuys_avg hn hv2 hne2 hex2
  rw [hmain, hmain2]
  have hcost : costSum trades2 = costSum trades := by
    unfold costSum
    exact List.Perm.sum_eq (hperm.map (fun t : ℚ × ℚ => t.2 * t.1))
  have hqty : qtySum trades2 = qtySum trades := by
    unfold qtySum
    exact List.Perm.sum_eq (hperm.map (fun t : ℚ × ℚ => t.1))
  rw [hcost, hqty]

/-- Witness for C2 at a concrete input: BUY 10 @ 100 then BUY 10 @ 200 gives
average 150. -/
theorem C2_buy_sequence_weighted_mean_witness :
    (findHolding (.str "TCS")
      (applyBuys (.str "TCS") [(10, 100), (10, 200)] { orders := [], holdings := [] }).holdings).map
        Holding.avg
      = some 150 := by
  have h := C2_buy_sequence_weighted_mean (.str "TCS") [(10, 100), (10, 200)]
    { orders := [], holdings := [] } (by decide) (by decide) (by decide) rfl
  rw [h.1]
  norm_num [costSum, qtySum]

/-! ### Reachable states and the no-zero-quantity invariant (C3) -/

/-- The holdings ledger before any order: empty, as on a fresh database. -/
def emptyLedger : LedgerState := { orders := [], holdings := [] }

/-- Run an arbitrary sequence of `/newOrder` requests from the empty state. -/
def runOrders (reqs : List OrderReq) : LedgerState :=
  reqs.foldl (fun s r => (placeOrder r s).1) emptyLedger

/-- Well-formedness of the holdings ledger: every stored quantity is a
positive integer (hence nonzero). -/
def holdingsWF (st : LedgerState) : Prop := ∀ h ∈ st.holdings, 1 ≤ h.qty ∧ h.qty.den = 1

theorem one_le_of_den_one_pos {q : ℚ} (hden : q.den = 1) (hpos : 0 < q) : 1 ≤ q := by
  have hq : (q.num : ℚ) = q := (Rat.den_eq_one_iff q).mp hden
  have hnum : 0 < q.num := Rat.num_pos.mpr hpos
  have h1 : (1 : ℚ) ≤ (q.num : ℚ) := by exact_mod_cast hnum
  rwa [hq] at h1

theorem den_one_add {a b : ℚ} (ha : a.den = 1) (hb : b.den = 1) : (a + b).den = 1 := by
  have ha2 : (a.num : ℚ) = a := (Rat.den_eq_one_iff a).mp ha
  have hb2 : (b.num : ℚ) = b := (Rat.den_eq_one_iff b).mp hb
  have : a + b = ((a.num + b.num : ℤ) : ℚ) := by push_cast; rw [ha2, hb2]
  rw [this, Rat.den_intCast]

theorem den_one_sub {a b : ℚ} (ha : a.den = 1) (hb : b.den = 1) : (a - b).den = 1 := by
  have ha2 : (a.num : ℚ) = a := (Rat.den_eq_one_iff a).mp ha
  have hb2 : (b.num : ℚ) = b := (Rat.den_eq_one_iff b).mp hb
  have : a - b = ((a.num - b.num : ℤ) : ℚ) := by push_cast; rw [ha2, hb2]
  rw [this, Rat.den_intCast]

theorem isPosIntVal_numVal {v : JsVal} (h : isPosIntVal v = true) :
    (numVal v).den = 1 ∧ 0 < numVal v := by
  cases v with
  | undef => simp [isPosIntVal] at h
  | str s => simp [isPosIntVal] at h
  | num q =>
    simp only [isPosIntVal, Bool.and_eq_true, decide_eq_true_eq] at h
    exact ⟨h.1, h.2⟩

theorem placeOrder_preserves_wf (req : OrderReq) (st : LedgerState) (hwf : holdingsWF st) :
    holdingsWF (placeOrder req st).1 := by
  unfold placeOrder
  split
  · exact hwf
  split
  · exact hwf
  rename_i hfields hqtyok
  have hq : (numVal req.qty).den = 1 ∧ 0 < numVal req.qty :=
    isPosIntVal_numVal (by simpa using hqtyok)
  split
  · exact hwf
  split
  · exact hwf
  split
  · -- a Holding for `req.name` exists
    rename_i optex ex heq
    have hexmem : ex ∈ st.holdings := List.mem_of_find?_eq_some heq
    have hexwf := hwf ex hexmem
    split
    · -- BUY: weighted-average update
      intro x hx
      rcases mem_updateFirst heq hx with hmem | hfx
      · exact hwf x hmem
      · rw [hfx]
        constructor
        · have h1 : 1 ≤ ex.qty := hexwf.1
          have h2 : (0:ℚ) ≤ numVal req.qty := le_of_lt hq.2
          show (1:ℚ) ≤ ex.qty + numVal req.qty
          linarith
        · exact den_one_add hexwf.2 hq.1
    · split
      · -- SELL
        dsimp only
        split
        · -- strictly positive remainder
          rename_i hrem
          intro x hx
          rcases mem_updateFirst heq hx with hmem | hfx
          · exact hwf x hmem
          · rw [hfx]
            have hden : (ex.qty - numVal req.qty).den = 1 := den_one_sub hexwf.2 hq.1
            exact ⟨one_le_of_den_one_pos hden hrem, hden⟩
        · split
          · -- exact sell: the Holding is deleted
            intro x hx
            exact hwf x (mem_deleteFirst hx)
          · -- oversell: state unchanged
            exact hwf
      · exact hwf
  · -- no Holding for `req.name`
    split
    · -- BUY: create a fresh Holding
      intro x hx
      rcases List.mem_append.mp hx with hmem | hmem
      · exact hwf x hmem
      · have hxeq : x = { name := req.name, qty := numVal req.qty, avg := numVal req.price, price := numVal req.price, net := 0, day := 0 } := by
          simpa using hmem
        rw [hxeq]
        exact ⟨one_le_of_den_one_pos hq.1 hq.2, hq.1⟩
    · exact hwf

theorem runOrders_wf (reqs : List OrderReq) : holdingsWF (runOrders reqs) := by
  have hgen : ∀ (l : List OrderReq) (st : LedgerState), holdingsWF st →
      holdingsWF (l.foldl (fun s r => (placeOrder r s).1) st) := by
    intro l
    induction l with
    | nil => intro st h; exact h
    | cons r t ih =>
      intro st h
      exact ih _ (placeOrder_preserves_wf r st h)
  exact hgen reqs emptyLedger (by intro h hmem; simp [emptyLedger] at hmem)

/-- C3: after any sequence of `/newOrder` requests starting from an empty
holdings ledger, no Holding with `qty = 0` exists: every stored Holding has
quantity at least 1 (a SELL that empties a Holding deletes it, and every
created or updated quantity is a positive integer). -/
theorem C3_no_zero_qty_holding (reqs : List OrderReq) (h : Holding)
    (hmem : h ∈ (runOrders reqs).holdings) : h.qty ≠ 0 ∧ 1 ≤ h.qty := by
  have hwf := runOrders_wf reqs h hmem
  exact ⟨ne_of_gt (lt_of_lt_of_le one_pos hwf.1), hwf.1⟩

/-- Witness for C3 at a concrete input: after a BUY of 5 TCS the single stored
Holding has nonzero quantity. -/
theorem C3_no_zero_qty_holding_witness :
    ({ name := JsVal.str "TCS", qty := 5, avg := 7, price := 7, net := 0, day := 0 } : Holding).qty ≠ 0 ∧
      1 ≤ ({ name := JsVal.str "TCS", qty := 5, avg := 7, price := 7, net := 0, day := 0 } : Holding).qty :=
  C3_no_zero_qty_holding
    [{ name := .str "TCS", qty := .num 5, price := .num 7, mode := .str "BUY" }] _ (by decide)

/-! ### First-violation-wins validation (C6) -/

/-- Spec-side description of order-placement validation, written from the
spec's words: first-violation-wins in the fixed order missing fields, then
quantity, then price, then mode, with `none` when all checks pass.  C6
compares `placeOrder` against this description. -/
def specFirstViolation (req : OrderReq) : Option String :=
  if ¬(truthy req.name && truthy req.qty && truthy req.price && truthy req.mode) then
    some "Missing required fields"
  else if ¬ isPosIntVal req.qty then
    some "Quantity must be a positive integer"
  else if ¬ isPosNumVal req.price then
    some "Price must be a positive number"
  else if ¬(req.mode = JsVal.str "BUY" ∨ req.mode = JsVal.str "SELL") then
    some "Mode must be BUY or SELL"
  else
    none

/-- C6: all input validation of `/newOrder` runs before any write and is
first-violation-wins: exactly the message of the first violated check (in the
fixed order missing fields, quantity, price, mode) is returned with the state
untouched, a validation rejection occurs only as that description dictates,
and when every check passes no validation rejection is returned. -/
theorem C6_order_validation_first_violation (req : OrderReq) (st : LedgerState) :
    (∀ m, specFirstViolation req = some m →
      placeOrder req st = (st, OrderResp.validationError m)) ∧
    (∀ m, (placeOrder req st).2 = OrderResp.validationError m →
      specFirstViolation req = some m) ∧
    (specFirstViolation req = none →
      ∀ m, (placeOrder req st).2 ≠ OrderResp.validationError m) := by
  have part1 : ∀ m, specFirstViolation req = some m →
      placeOrder req st = (st, OrderResp.validationError m) := by
    intro m hm
    unfold specFirstViolation at hm
    split_ifs at hm with h1 h2 h3 h4
    all_goals
      first
        | exact Option.noConfusion hm
        | (cases hm
           unfold placeOrder
           first
             | rw [if_pos h1]
             | rw [if_neg (not_not_intro h1), if_pos h2]
             | rw [if_neg (not_not_intro h1), if_neg (not_not_intro h2), if_pos h3]
             | rw [if_neg (not_not_intro h1), if_neg (not_not_intro h2),
                   if_neg (not_not_intro h3), if_pos h4])
  have part3 : specFirstViolation req = none →
      ∀ m, (placeOrder req st).2 ≠ OrderResp.validationError m := by
    intro hnone m
    unfold specFirstViolation at hnone
    split_ifs at hnone with h1 h2 h3 h4
    unfold placeOrder
    rw [if_neg (not_not_intro h1), if_neg (not_not_intro h2),
        if_neg (not_not_intro h3), if_neg (not_not_intro h4)]
    dsimp only
    repeat' split
    all_goals simp
  have part2 : ∀ m, (placeOrder req st).2 = OrderResp.validationError m →
      specFirstViolation req = some m := by
    intro m hm
    cases hspec : specFirstViolation req with
    | none => exact absurd hm (part3 hspec m)
    | some m2 =>
      have heq := part1 m2 hspec
      rw [heq] at hm
      simp only [OrderResp.validationError.injEq] at hm
      rw [hm]
  exact ⟨part1, part2, part3⟩

/-- Witness for C6 at a concrete input: a request whose quantity field holds a
string passes the presence check but fails the quantity check, and is rejected
with exactly that message and no state change. -/
theorem C6_order_validation_first_violation_witness :
    placeOrder { name := .str "TCS", qty := .str "five", price := .num 100, mode := .str "BUY" }
      { orders := [], holdings := [] }
      = ({ orders := [], holdings := [] },
         OrderResp.validationError "Quantity must be a positive integer") :=
  (C6_order_validation_first_violation
    { name := .str "TCS", qty := .str "five", price := .num 100, mode := .str "BUY" }
    { orders := [], holdings := [] }).1 "Quantity must be a positive integer" (by decide)

/-! ### Signup validation and uniqueness (C7, C8) -/

/-- Strip leading JavaScript whitespace from a character list. -/
def dropLeadingWs : List Char → List Char
  | [] => []
  | c :: cs => if c.isWhitespace then dropLeadingWs cs else c :: cs

/-- JavaScript `String.prototype.trim`: strip whitespace from both ends. -/
def jsTrim (s : String) : String :=
  String.mk ((dropLeadingWs ((dropLeadingWs s.data).reverse)).reverse)

/-- JavaScript `String.prototype.toLowerCase` (ASCII-adequate here). -/
def jsToLower (s : String) : String :=
  String.mk (s.data.map Char.toLower)

/-- Split a character list at every occurrence of a separator. -/
def splitOnChar (sep : Char) : List Char → List (List Char)
  | [] => [[]]
  | c :: cs =>
    match splitOnChar sep cs with
    | [] => [[]]
    | g :: gs => if c = sep then [] :: g :: gs else (c :: g) :: gs

/-- The `isValidEmail` check of `AuthController.js`, the regex
`/^[^\s@]+@[^\s@]+\.[^\s@]+$/`: a match exists exactly when the string has a
single `@`, a nonempty whitespace-free part before it, and a whitespace-free
part after it containing a `.` that is neither its first nor its last
character (so both dot-neighbours are nonempty). -/
def isValidEmail (s : String) : Bool :=
  match splitOnChar '@' s.data with
  | [a, d] =>
    !a.isEmpty && a.all (fun c => !c.isWhitespace) && d.all (fun c => !c.isWhitespace) &&
      ((d.drop 1).dropLast.contains '.')
  | _ => false

/-- `PASSWORD_MIN_LENGTH` from `AuthController.js`. -/
def PASSWORD_MIN_LENGTH : Nat := 8

/-- The template literal
`Password must be at least ${PASSWORD_MIN_LENGTH} characters`. -/
def passwordLengthMsg : String :=
  "Password must be at least " ++ toString PASSWORD_MIN_LENGTH ++ " characters"

/-- The email block of the `Signup` validation, in isolation. -/
def emailFieldErrors (email : Option String) : List String :=
  match email.map (fun s => jsToLower (jsTrim s)) with
  | none => ["Email is required"]
  | some e =>
    if e = "" then ["Email is required"]
    else if ¬ isValidEmail e then ["Invalid email format"]
    else []

/-- The password block of the `Signup` validation, in isolation. -/
def passwordFieldErrors (password : Option String) : List String :=
  match password.map jsTrim with
  | none => ["Password is required"]
  | some p =>
    if p = "" then ["Password is required"]
    else if p.length < PASSWORD_MIN_LENGTH then [passwordLengthMsg]
    else []

/-- The username block of the `Signup` validation, in isolation. -/
def usernameFieldErrors (username : Option String) : List String :=
  match username.map jsTrim with
  | none => ["Username is required"]
  | some u =>
    if u = "" then ["Username is required"]
    else if u.length < 3 then ["Username must be at least 3 characters"]
    else []

/-- The `validationErrors` accumulator of the `Signup` controller: the three
field blocks run in sequence, each pushing its messages onto the list built so
far (no short-circuit between fields). -/
def signupValidationErrors (email password username : Option String) : List String :=
  let errors0 : List String := []
  let errors1 :=
    match email.map (fun s => jsToLower (jsTrim s)) with
    | none => errors0 ++ ["Email is required"]
    | some e =>
      if e = "" then errors0 ++ ["Email is required"]
      else if ¬ isValidEmail e then errors0 ++ ["Invalid email format"]
      else errors0
  let errors2 :=
    match password.map jsTrim with
    | none => errors1 ++ ["Password is required"]
    | some p =>
      if p = "" then errors1 ++ ["Password is required"]
      else if p.length < PASSWORD_MIN_LENGTH then errors1 ++ [passwordLengthMsg]
      else errors1
  let errors3 :=
    match username.map jsTrim with
    | none => errors2 ++ ["Username is required"]
    | some u =>
      if u = "" then errors2 ++ ["Username is required"]
      else if u.length < 3 then errors2 ++ ["Username must be at least 3 characters"]
      else errors2
  errors3

/-- A stored user record, as far as the uniqueness checks look at it. -/
structure UserRec : Type where
  email : String
  username : String
deriving DecidableEq, Repr

/-- Outcome of a `Signup` request: 400 with the collected validation errors,
409 with a conflict message, or 201 with the created user's normalized email
and username. -/
inductive SignupResp : Type where
  | validationFailed : List String → SignupResp
  | conflict : String → SignupResp
  | created : String → String → SignupResp
deriving DecidableEq, Repr

/-- The `Signup` controller of `AuthController.js`: collect validation errors
(returning them all at once), then look up the normalized email and username
among existing users — the email collision is tested first — then create the
user. -/
def signup (email password username : Option String) (users : List UserRec) : SignupResp :=
  let errors := signupValidationErrors email password username
  if errors ≠ [] then SignupResp.validationFailed errors
  else
    let e := jsToLower (jsTrim (email.getD ""))
    let u := jsTrim (username.getD "")
    if (users.find? (fun r => decide (r.email = e))).isSome then
      SignupResp.conflict "Email already registered"
    else if (users.find? (fun r => decide (r.username = u))).isSome then
      SignupResp.conflict "Username already taken"
    else
      SignupResp.created e u

/-- C7: signup validation collects the violations of all fields together
(the error list is always the concatenation of the three independent
per-field blocks, so no field short-circuits another); a trimmed password of
exactly 8 characters passes the password check, while one of 7 characters
contributes the password-length message to the returned list. -/
theorem C7_signup_collects_all_errors (email password username : Option String)
    (p7 p8 : String) (h8 : (jsTrim p8).length = 8) (h7 : (jsTrim p7).length = 7) :
    (signupValidationErrors email password username
      = emailFieldErrors email ++ passwordFieldErrors password ++ usernameFieldErrors username) ∧
    passwordFieldErrors (some p8) = [] ∧
    passwordLengthMsg ∈ signupValidationErrors email (some p7) username := by
  have hconcat : ∀ pw, signupValidationErrors email pw username
      = emailFieldErrors email ++ passwordFieldErrors pw ++ usernameFieldErrors username := by
    intro pw
    unfold signupValidationErrors emailFieldErrors passwordFieldErrors usernameFieldErrors
    rcases email with _ | e <;> rcases pw with _ | p <;> rcases username with _ | u <;>
      simp only [Option.map_none', Option.map_some'] <;> (try split_ifs) <;> simp
  have hne8 : jsTrim p8 ≠ "" := by
    intro hcontra
    rw [hcontra] at h8
    simp at h8
  have hp8 : passwordFieldErrors (some p8) = [] := by
    unfold passwordFieldErrors
    simp only [Option.map_some']
    rw [if_neg hne8, if_neg (by rw [h8]; simp [PASSWORD_MIN_LENGTH])]
  have hne7 : jsTrim p7 ≠ "" := by
    intro hcontra
    rw [hcontra] at h7
    simp at h7
  have hp7 : passwordFieldErrors (some p7) = [passwordLengthMsg] := by
    unfold passwordFieldErrors
    simp only [Option.map_some']
    rw [if_neg hne7, if_pos (by rw [h7]; simp [PASSWORD_MIN_LENGTH])]
  refine ⟨hconcat password, hp8, ?_⟩
  rw [hconcat (some p7), hp7]
  simp

/-- Witness for C7 at concrete inputs: an 8-character password passes, a
7-character one is reported, and the error list is the concatenation of the
three field blocks. -/
theorem C7_signup_collects_all_errors_witness :
    (signupValidationErrors (some "bad email") (some "pw") (some "x")
      = emailFieldErrors (some "bad email") ++ passwordFieldErrors (some "pw")
        ++ usernameFieldErrors (some "x")) ∧
    passwordFieldErrors (some "12345678") = [] ∧
    passwordLengthMsg ∈ signupValidationErrors (some "bad email") (some "1234567") (some "x") :=
  C7_signup_collects_all_errors (some "bad email") (some "pw") (some "x")
    "1234567" "12345678" (by decide) (by decide)

/-- C8: a signup request that passes validation and collides on both email and
username is answered with the email conflict — the email check comes first. -/
theorem C8_email_conflict_first (email password username : Option String) (users : List UserRec)
    (hval : signupValidationErrors email password username = [])
    (hemail : ∃ r ∈ users, r.email = jsToLower (jsTrim (email.getD "")))
    (husername : ∃ r ∈ users, r.username = jsTrim (username.getD "")) :
    signup email password username users = SignupResp.conflict "Email already registered" := by
  obtain ⟨r, hr, hre⟩ := hemail
  have hfound : (users.find? (fun r => decide (r.email = jsToLower (jsTrim (email.getD ""))))).isSome :=
    List.find?_isSome.mpr ⟨r, hr, by simp [hre]⟩
  unfold signup
  rw [hval]
  dsimp only
  rw [if_neg (by simp), if_pos hfound]

/-- Witness for C8 at a concrete input: both the email and the username of the
request already belong to a stored user; the reply is the email conflict. -/
theorem C8_email_conflict_first_witness :
    signup (some "a@b.c") (some "password1") (some "bob")
      [{ email := "a@b.c", username := "bob" }]
      = SignupResp.conflict "Email already registered" :=
  C8_email_conflict_first (some "a@b.c") (some "password1") (some "bob")
    [{ email := "a@b.c", username := "bob" }] (by decide)
    ⟨{ email := "a@b.c", username := "bob" }, by decide, by decide⟩
    ⟨{ email := "a@b.c", username := "bob" }, by decide, by decide⟩
